import Mathlib

/-!
Shallow embedding of the core of `claude-code-router-az`:
the Azure credential cache (`getAzureToken`), the two variants of
`azureAuthMiddleware` (URL-rewriting variant in
`src/middleware/azure-auth.ts`, side-channel-header variant in the
unnamed middleware file), and the config loader (`readConfigFile`,
`initConfig`).

Time is in milliseconds (`Date.now()` values) modelled as `Nat`.
JS `Map` objects and plain objects used as string-keyed records are
modelled as association lists with JS semantics: `aset` updates the
first binding in place or appends, `adel` removes the binding,
`aget` reads the first binding.
-/

namespace CCR

/-- JS `map.get(k)` / `obj[k]`: the first binding for `k`, if any. -/
def aget {α : Type} (m : List (String × α)) (k : String) : Option α :=
  (m.find? (fun p => p.1 == k)).map (fun p => p.2)

/-- JS `map.set(k, v)` / `obj[k] = v`: update the existing binding in
place (keeping its position), or append a new binding at the end. -/
def aset {α : Type} : List (String × α) → String → α → List (String × α)
  | [], k, v => [(k, v)]
  | (k0, v0) :: tl, k, v =>
      if k0 == k then (k, v) :: tl else (k0, v0) :: aset tl k v

/-- JS `delete obj[k]` / `map.delete(k)`: remove the binding for `k`. -/
def adel {α : Type} (m : List (String × α)) (k : String) : List (String × α) :=
  m.filter (fun p => p.1 != k)

theorem aget_nil {α : Type} (k : String) : aget ([] : List (String × α)) k = none := rfl

theorem aget_cons {α : Type} (k0 k : String) (v0 : α) (tl : List (String × α)) :
    aget ((k0, v0) :: tl) k = if k0 == k then some v0 else aget tl k := by
  cases hb : (k0 == k) <;> simp [aget, List.find?, hb]

theorem aget_aset_self {α : Type} (m : List (String × α)) (k : String) (v : α) :
    aget (aset m k v) k = some v := by
  induction m with
  | nil => simp [aset, aget_cons]
  | cons hd tl ih =>
    obtain ⟨k0, v0⟩ := hd
    by_cases h : k0 = k
    · subst h
      simp [aset, aget_cons]
    · have hb : (k0 == k) = false := by simp [h]
      simp [aset, hb, aget_cons, ih]

theorem aget_aset_ne {α : Type} (m : List (String × α)) (k k2 : String) (v : α)
    (hne : k2 ≠ k) : aget (aset m k v) k2 = aget m k2 := by
  have hkk2 : k ≠ k2 := Ne.symm hne
  induction m with
  | nil => simp [aset, aget_cons, aget_nil, hkk2]
  | cons hd tl ih =>
    obtain ⟨k0, v0⟩ := hd
    by_cases h : k0 = k
    · have hb : (k0 == k) = true := by simp [h]
      simp [aset, hb, aget_cons, h, hkk2]
    · have hb : (k0 == k) = false := by simp [h]
      by_cases h2 : k0 = k2 <;> simp [aset, hb, aget_cons, h2, hne, ih]

theorem aget_adel_self {α : Type} (m : List (String × α)) (k : String) :
    aget (adel m k) k = none := by
  induction m with
  | nil => rfl
  | cons hd tl ih =>
    obtain ⟨k0, v0⟩ := hd
    by_cases h : k0 = k
    · have hbn : (k0 != k) = false := by simp [h]
      simpa [adel, List.filter_cons, hbn] using ih
    · have hbn : (k0 != k) = true := by simp [h]
      have hb : (k0 == k) = false := by simp [h]
      simpa [adel, List.filter_cons, hbn, aget_cons, hb] using ih

theorem aget_adel_ne {α : Type} (m : List (String × α)) (k k2 : String)
    (hne : k2 ≠ k) : aget (adel m k) k2 = aget m k2 := by
  have hkk2 : k ≠ k2 := Ne.symm hne
  induction m with
  | nil => rfl
  | cons hd tl ih =>
    obtain ⟨k0, v0⟩ := hd
    by_cases h : k0 = k
    · have hbn : (k0 != k) = false := by simp [h]
      have hb2 : (k0 == k2) = false := by simp [h, hkk2]
      simp [aget_cons, hb2, adel, List.filter_cons, hbn]
      simpa [adel] using ih
    · have hbn : (k0 != k) = true := by simp [h]
      by_cases h2 : k0 = k2
      · simp [adel, List.filter_cons, hbn, aget_cons, h2, hne]
      · simp [adel, List.filter_cons, hbn, aget_cons, h2]
        simpa [adel] using ih

/-! ## Credential cache (`getAzureToken` in `src/middleware/azure-auth.ts`) -/

/-- `const AZURE_SCOPE = 'https://cognitiveservices.azure.com/.default'`. -/
def AZURE_SCOPE : String := "https://cognitiveservices.azure.com/.default"

/-- An entry of `tokenCache`: `{ token: string; expiresAt: number }`. -/
structure CachedToken where
  token : String
  expiresAt : Nat
deriving DecidableEq, Repr

/-- The module-level `tokenCache: Map<string, {token, expiresAt}>`. -/
abbrev TokenCache : Type := List (String × CachedToken)

/-- The synchronous cache check at the top of `getAzureToken`:
`const cached = tokenCache.get(cacheKey); if (cached && cached.expiresAt > Date.now() + 60000) return cached.token;`
Returns the cached token when it is still valid, else `none`. -/
def checkCache (cache : TokenCache) (now : Nat) : Option String :=
  match aget cache AZURE_SCOPE with
  | some cached => if cached.expiresAt > now + 60000 then some cached.token else none
  | none => none

/-- Result of one `getAzureToken()` call: the returned value (or the
propagated error), the cache afterwards, and how many calls to the
underlying `tokenProvider` were made (0 or 1). -/
structure GetTokenResult where
  result : Except String String
  cache : TokenCache
  acquisitions : Nat

/-- `getAzureToken()` run to completion with no interleaving: `acquire`
is the outcome of the awaited `tokenProvider(...)` call (the external
token acquisition). On a valid cached token, return it with no I/O.
Otherwise acquire: on success cache
`{token, expiresAt: Date.now() + 50*60*1000}` and return the token; on
failure rethrow and leave the cache untouched. -/
def getAzureToken (cache : TokenCache) (now : Nat) (acquire : Except String String) :
    GetTokenResult :=
  match checkCache cache now with
  | some tok => ⟨Except.ok tok, cache, 0⟩
  | none =>
      match acquire with
      | Except.ok token =>
          ⟨Except.ok token, aset cache AZURE_SCOPE ⟨token, now + 50 * 60 * 1000⟩, 1⟩
      | Except.error e => ⟨Except.error e, cache, 1⟩

/-! ## Concurrency model for `getAzureToken`

`getAzureToken` is an `async` function whose only suspension point is
the `await tokenProvider(...)` call.  A caller therefore executes as two
atomic phases on the event loop: the synchronous cache check (which, on
a miss, issues the external acquisition call and suspends), and the
resumption (which receives the fresh token, writes the cache and
returns).  Interleavings of two concurrent callers are modelled by a
schedule picking which caller steps next. -/

/-- The phase of one caller inside `getAzureToken`: `ready fresh` before
its synchronous cache check (`fresh` is the token the external provider
would hand this caller), `awaiting fresh` once it has issued its own
`tokenProvider` call and suspended, `done r` after returning `r`. -/
inductive CallerPhase where
  | ready (fresh : String)
  | awaiting (fresh : String)
  | done (result : String)
deriving DecidableEq, Repr

/-- Shared state of two concurrent `getAzureToken` calls: the module
level `tokenCache`, each caller's phase, and the total number of
external `tokenProvider` calls issued so far. -/
structure ConcState where
  cache : TokenCache
  callerA : CallerPhase
  callerB : CallerPhase
  acquisitions : Nat
deriving DecidableEq, Repr

/-- One atomic phase of a single caller, as in `getAzureToken`:
a `ready` caller runs the cache check and either returns the cached
token or issues the external acquisition (counting it) and suspends;
an `awaiting` caller resumes with its fresh token, writes
`tokenCache.set(cacheKey, {token, expiresAt: now + 50*60*1000})` and
returns the token; a `done` caller does nothing. -/
def stepCaller (now : Nat) (phase : CallerPhase) (cache : TokenCache) (acqs : Nat) :
    CallerPhase × TokenCache × Nat :=
  match phase with
  | CallerPhase.ready fresh =>
      match checkCache cache now with
      | some tok => (CallerPhase.done tok, cache, acqs)
      | none => (CallerPhase.awaiting fresh, cache, acqs + 1)
  | CallerPhase.awaiting fresh =>
      (CallerPhase.done fresh, aset cache AZURE_SCOPE ⟨fresh, now + 50 * 60 * 1000⟩, acqs)
  | CallerPhase.done r => (CallerPhase.done r, cache, acqs)

/-- Run two concurrent callers under a schedule: `true` steps caller A,
`false` steps caller B. -/
def runSchedule (now : Nat) : List Bool → ConcState → ConcState
  | [], s => s
  | c :: rest, s =>
      if c then
        let r := stepCaller now s.callerA s.cache s.acquisitions
        runSchedule now rest ⟨r.2.1, r.1, s.callerB, r.2.2⟩
      else
        let r := stepCaller now s.callerB s.cache s.acquisitions
        runSchedule now rest ⟨r.2.1, s.callerA, r.1, r.2.2⟩

/-! ## The middleware (`azureAuthMiddleware`, two coexisting variants) -/

/-- The fields of a provider record that the middleware and the config
loader read or write (`name`, `api_base_url`, `auth_type`, `api_key`,
`models`). -/
structure Provider where
  name : String
  api_base_url : String
  auth_type : Option String
  api_key : Option String
  models : List String
deriving DecidableEq, Repr

/-- JS truthiness of an optional string (`undefined` and `''` falsy). -/
def truthy : Option String → Bool
  | none => false
  | some s => s != ""

/-- `s.split(sep)[0]`: the part of `s` before the first occurrence of
`sep` (all of `s` when `sep` does not occur). -/
def splitHead (s sep : String) : String :=
  match s.splitOn sep with
  | [] => s
  | x :: _ => x

/-- The request state the middleware touches: its headers and the
fields stashed on it by the router (`selectedProvider`,
`azureDeployment`, `azureApiVersion`). -/
structure Req where
  headers : List (String × String)
  selectedProvider : Option Provider
  azureDeployment : Option String
  azureApiVersion : Option String
deriving DecidableEq, Repr

/-- Observable outcome of one `azureAuthMiddleware` run: the request
headers afterwards, the (shared) provider record afterwards, the error
reply sent via `reply.code(...).send(...)` if any, the token cache
afterwards, and the number of external acquisitions performed. -/
structure MwResult where
  headers : List (String × String)
  provider : Option Provider
  reply : Option (Nat × String)
  cache : TokenCache
  acquisitions : Nat
deriving DecidableEq, Repr

/-- The URL-rewriting variant of `azureAuthMiddleware`
(`src/middleware/azure-auth.ts`): skip unless the selected provider has
`auth_type === 'azure'`; get a token; set the `authorization` bearer
header; delete the `x-api-key` and `api-key` headers; delete the
provider's truthy `api_key`; when `req.azureDeployment` and
`req.azureApiVersion` are truthy, rewrite `provider.api_base_url` to
the deployment URL built from the base URL prefix before `/openai/`.
On a token error, reply 500. -/
def azureAuthMiddlewareUrl (req : Req) (now : Nat) (cache : TokenCache)
    (acquire : Except String String) : MwResult :=
  match req.selectedProvider with
  | none => ⟨req.headers, req.selectedProvider, none, cache, 0⟩
  | some provider =>
      if provider.auth_type ≠ some "azure" then
        ⟨req.headers, req.selectedProvider, none, cache, 0⟩
      else
        let r := getAzureToken cache now acquire
        match r.result with
        | Except.error _ =>
            ⟨req.headers, req.selectedProvider, some (500, "Azure authentication failed"),
              r.cache, r.acquisitions⟩
        | Except.ok token =>
            let hs1 := aset req.headers "authorization" ("Bearer " ++ token)
            let hs2 := adel (adel hs1 "x-api-key") "api-key"
            let p1 := if truthy provider.api_key then { provider with api_key := none }
                      else provider
            let p2 :=
              match req.azureDeployment, req.azureApiVersion with
              | some d, some v =>
                  if d != "" && v != "" then
                    { p1 with api_base_url :=
                        splitHead p1.api_base_url "/openai/" ++ "/openai/deployments/" ++ d ++
                          "/chat/completions?api-version=" ++ v }
                  else p1
              | _, _ => p1
            ⟨hs2, some p2, none, r.cache, r.acquisitions⟩

/-- The side-channel variant of `azureAuthMiddleware` (the unnamed
middleware file): identical to the URL variant up to and including the
provider `api_key` deletion, but instead of rewriting the URL it leaves
the provider's `api_base_url` alone and stores the deployment and API
version in the `x-azure-deployment` / `x-azure-api-version` headers for
a downstream transformer. -/
def azureAuthMiddlewareSideChannel (req : Req) (now : Nat) (cache : TokenCache)
    (acquire : Except String String) : MwResult :=
  match req.selectedProvider with
  | none => ⟨req.headers, req.selectedProvider, none, cache, 0⟩
  | some provider =>
      if provider.auth_type ≠ some "azure" then
        ⟨req.headers, req.selectedProvider, none, cache, 0⟩
      else
        let r := getAzureToken cache now acquire
        match r.result with
        | Except.error _ =>
            ⟨req.headers, req.selectedProvider, some (500, "Azure authentication failed"),
              r.cache, r.acquisitions⟩
        | Except.ok token =>
            let hs1 := aset req.headers "authorization" ("Bearer " ++ token)
            let hs2 := adel (adel hs1 "x-api-key") "api-key"
            let p1 := if truthy provider.api_key then { provider with api_key := none }
                      else provider
            let hs3 :=
              match req.azureDeployment, req.azureApiVersion with
              | some d, some v =>
                  if d != "" && v != "" then
                    aset (aset hs2 "x-azure-deployment" d) "x-azure-api-version" v
                  else hs2
              | _, _ => hs2
            ⟨hs3, some p1, none, r.cache, r.acquisitions⟩

/-! ## Config loading (`readConfigFile`, `initConfig`) -/

/-- A parsed configuration document (the result of `JSON5.parse`),
restricted to the parts `readConfigFile` touches: the two accepted
spellings of the provider list, and the `Router` table mapping route
class names (`default`, `background`, ...) to `"provider,model"`
strings. -/
structure ParsedConfig where
  providers : Option (List Provider)
  Providers : Option (List Provider)
  Router : List (String × String)
deriving DecidableEq, Repr

/-- The Azure-token injection loop in `readConfigFile`: for each
provider with `auth_type === 'azure'`, set `api_key` to the token from
the `az account get-access-token` shell-out when one was obtained
(`azToken = none` models the shell-out failing, in which case only a
warning is logged and the provider is left alone). -/
def injectAzureTokens (ps : List Provider) (azToken : Option String) : List Provider :=
  ps.map fun p =>
    if p.auth_type = some "azure" then
      match azToken with
      | some t => { p with api_key := some t }
      | none => p
    else p

/-- `readConfigFile` after a successful file read and `JSON5.parse`:
injects Azure tokens into the provider list (`parsedConfig.providers ||
parsedConfig.Providers`) and returns the parsed document.  The only
failure after a successful read is a parse error; nothing inspects the
`Router` table. -/
def readConfigFile (parsed : ParsedConfig) (azToken : Option String) :
    Except String ParsedConfig :=
  Except.ok <|
    match parsed.providers with
    | some ps => { parsed with providers := some (injectAzureTokens ps azToken) }
    | none =>
        match parsed.Providers with
        | some ps => { parsed with Providers := some (injectAzureTokens ps azToken) }
        | none => parsed

/-- `Object.assign(process.env, config)`: copy every top-level entry of
`cfg` into the environment in order, overwriting existing entries. -/
def objectAssign (env cfg : List (String × String)) : List (String × String) :=
  cfg.foldl (fun acc kv => aset acc kv.1 kv.2) env

/-- The process environment after `initConfig`:
`Object.assign(process.env, config)` where `cfgEntries` lists the
top-level key/value entries of the loaded configuration object (each
value through its JS string coercion). -/
def initConfigEnv (env cfgEntries : List (String × String)) : List (String × String) :=
  objectAssign env cfgEntries

/-! ## Helper lemmas -/

/-- Reading any header other than the two side-channel keys is
unaffected by setting the side-channel headers. -/
theorem aget_aset_sidechannel (hs : List (String × String)) (d v k : String)
    (h1 : k ≠ "x-azure-deployment") (h2 : k ≠ "x-azure-api-version") :
    aget (aset (aset hs "x-azure-deployment" d) "x-azure-api-version" v) k
      = aget hs k := by
  rw [aget_aset_ne _ _ _ _ h2, aget_aset_ne _ _ _ _ h1]

/-- `api_base_url` is untouched by the provider `api_key` deletion. -/
theorem api_base_url_after_api_key_delete (p : Provider) :
    (if truthy p.api_key then { p with api_key := none } else p).api_base_url
      = p.api_base_url := by
  split <;> rfl

/-- Presence of a key is preserved and created by `objectAssign`. -/
theorem aget_objectAssign_isSome (cfg : List (String × String))
    (env : List (String × String)) (k : String)
    (h : (aget cfg k).isSome ∨ (aget env k).isSome) :
    (aget (objectAssign env cfg) k).isSome := by
  induction cfg generalizing env with
  | nil =>
    rcases h with h | h
    · simp [aget_nil] at h
    · simpa [objectAssign] using h
  | cons hd tl ih =>
    obtain ⟨k0, v0⟩ := hd
    show (aget (objectAssign (aset env k0 v0) tl) k).isSome
    by_cases hk : k0 = k
    · apply ih
      right
      subst hk
      simp [aget_aset_self]
    · apply ih
      rcases h with h | h
      · left
        have hb : (k0 == k) = false := by simp [hk]
        simpa [aget_cons, hb] using h
      · right
        rwa [aget_aset_ne _ _ _ _ (Ne.symm hk)]

/-! ## Claims -/

/-- C1: the claim states that two concurrent `getToken` calls on an
empty cache perform exactly one underlying acquisition and receive the
same token.  The code has no single-flight coordination: under the
legal event-loop interleaving in which both callers run their cache
check before either acquisition resolves, each caller issues its own
`tokenProvider` call (two acquisitions) and the callers can receive
different tokens. -/
theorem twoConcurrent_empty_cache_two_acquisitions :
    (runSchedule 0 [true, false, true, false]
        ⟨[], CallerPhase.ready "tokenA", CallerPhase.ready "tokenB", 0⟩).acquisitions = 2 ∧
      (runSchedule 0 [true, false, true, false]
        ⟨[], CallerPhase.ready "tokenA", CallerPhase.ready "tokenB", 0⟩).callerA
          = CallerPhase.done "tokenA" ∧
      (runSchedule 0 [true, false, true, false]
        ⟨[], CallerPhase.ready "tokenA", CallerPhase.ready "tokenB", 0⟩).callerB
          = CallerPhase.done "tokenB" ∧
      ("tokenA" : String) ≠ "tokenB" := by
  refine ⟨rfl, rfl, rfl, by decide⟩

/-- The concrete azure provider used for the C2 counterexample run. -/
def c2Provider : Provider :=
  ⟨"azure-gpt4",
    "https://res.openai.azure.com/openai/deployments/old/chat/completions?api-version=old",
    some "azure", some "sk-dummy", ["gpt-4"]⟩

/-- C2: the claim states the middleware never mutates the shared
provider record.  The code deletes the provider's `api_key` in place
(and, when deployment info is present, also rewrites its
`api_base_url`), so the provider record after the run differs from the
one before. -/
theorem azureAuthMiddlewareUrl_mutates_provider :
    (azureAuthMiddlewareUrl ⟨[], some c2Provider, none, none⟩
        0 [] (Except.ok "tok")).provider
      = some { c2Provider with api_key := none } ∧
      (azureAuthMiddlewareUrl ⟨[], some c2Provider, none, none⟩
        0 [] (Except.ok "tok")).provider ≠ some c2Provider := by
  refine ⟨by decide, by decide⟩

/-- C3: a second `getToken` call strictly less than 49 minutes after a
first successful acquisition returns the identical token value with no
further acquisition (exactly one acquisition in total). -/
theorem getToken_second_call_within_49min (cache : TokenCache) (t0 t1 : Nat)
    (tok : String) (acq2 : Except String String)
    (hmiss : checkCache cache t0 = none)
    (ht : t1 < t0 + 49 * 60 * 1000) :
    let r1 := getAzureToken cache t0 (Except.ok tok)
    let r2 := getAzureToken r1.cache t1 acq2
    r1.result = Except.ok tok ∧ r1.acquisitions = 1 ∧
      r2.result = Except.ok tok ∧ r2.acquisitions = 0 := by
  have hread : aget (aset cache AZURE_SCOPE ⟨tok, t0 + 50 * 60 * 1000⟩) AZURE_SCOPE
      = some ⟨tok, t0 + 50 * 60 * 1000⟩ := aget_aset_self _ _ _
  have hgt : t0 + 50 * 60 * 1000 > t1 + 60000 := by omega
  have hcheck2 : checkCache (aset cache AZURE_SCOPE ⟨tok, t0 + 50 * 60 * 1000⟩) t1
      = some tok := by
    simp only [checkCache, hread]
    exact if_pos hgt
  simp only [getAzureToken, hmiss, hcheck2]
  exact ⟨trivial, trivial, trivial, trivial⟩

/-- C3 witness. -/
theorem getToken_second_call_within_49min_witness :
    checkCache [] 0 = none ∧ 1000 < 0 + 49 * 60 * 1000 ∧
      (getAzureToken [] 0 (Except.ok "t")).result = Except.ok "t" ∧
      (getAzureToken [] 0 (Except.ok "t")).acquisitions = 1 ∧
      (getAzureToken ((getAzureToken [] 0 (Except.ok "t")).cache) 1000
          (Except.error "e")).result = Except.ok "t" ∧
      (getAzureToken ((getAzureToken [] 0 (Except.ok "t")).cache) 1000
          (Except.error "e")).acquisitions = 0 :=
  have h := getToken_second_call_within_49min [] 0 1000 "t" (Except.error "e") rfl (by omega)
  ⟨rfl, by omega, h.1, h.2.1, h.2.2.1, h.2.2.2⟩

/-- C4: when the cached entry expires less than 60 seconds from now,
`getToken` performs a new underlying acquisition and returns its
outcome rather than the cached value. -/
theorem getToken_stale_triggers_acquisition (cache : TokenCache) (now : Nat)
    (c : CachedToken) (acquire : Except String String)
    (hc : aget cache AZURE_SCOPE = some c)
    (hexp : c.expiresAt < now + 60000) :
    (getAzureToken cache now acquire).acquisitions = 1 ∧
      (getAzureToken cache now acquire).result = acquire := by
  have hnotvalid : ¬ (c.expiresAt > now + 60000) := by omega
  rcases acquire with e | tok <;>
    simp [getAzureToken, checkCache, hc, hnotvalid]

/-- C4 witness. -/
theorem getToken_stale_triggers_acquisition_witness :
    aget [(AZURE_SCOPE, (⟨"old", 100⟩ : CachedToken))] AZURE_SCOPE = some ⟨"old", 100⟩ ∧
      (100 : Nat) < 1000000 + 60000 ∧
      (getAzureToken [(AZURE_SCOPE, ⟨"old", 100⟩)] 1000000 (Except.ok "new")).acquisitions = 1 ∧
      (getAzureToken [(AZURE_SCOPE, ⟨"old", 100⟩)] 1000000 (Except.ok "new")).result
        = Except.ok "new" :=
  ⟨by decide, by decide,
    getToken_stale_triggers_acquisition [(AZURE_SCOPE, ⟨"old", 100⟩)] 1000000 ⟨"old", 100⟩
      (Except.ok "new") (by decide) (by decide)⟩

/-- C5: when the underlying acquisition fails, `getToken` propagates
the error and stores nothing: the cache is unchanged, so a later call
that still finds no valid entry performs an acquisition again. -/
theorem getToken_failure_propagates (cache : TokenCache) (now : Nat) (e : String)
    (hmiss : checkCache cache now = none) :
    let r := getAzureToken cache now (Except.error e)
    r.result = Except.error e ∧ r.cache = cache ∧
      ∀ now2 acq2, checkCache r.cache now2 = none →
        (getAzureToken r.cache now2 acq2).acquisitions = 1 := by
  simp only [getAzureToken, hmiss]
  refine ⟨trivial, trivial, ?_⟩
  intro now2 acq2 h2
  rcases acq2 with e2 | tok2 <;> simp [getAzureToken, h2]

/-- C5 witness. -/
theorem getToken_failure_propagates_witness :
    checkCache [] 0 = none ∧
      (getAzureToken [] 0 (Except.error "boom")).result = Except.error "boom" ∧
      (getAzureToken [] 0 (Except.error "boom")).cache = [] ∧
      (getAzureToken ((getAzureToken [] 0 (Except.error "boom")).cache) 5
          (Except.ok "t2")).acquisitions = 1 :=
  have h := getToken_failure_propagates [] 0 "boom" rfl
  ⟨rfl, h.1, h.2.1, h.2.2 5 (Except.ok "t2") rfl⟩

/-- C6: the claim states that a configuration whose `Router` table has
no `default` entry fails validation at load time.  `readConfigFile`
performs no validation of the `Router` table at all: on the
counterexample configuration, whose router table is empty, loading
returns the document unchanged instead of failing. -/
theorem readConfigFile_no_default_route_still_loads :
    aget (ParsedConfig.mk (some []) none []).Router "default" = none ∧
      readConfigFile (ParsedConfig.mk (some []) none []) none
        = Except.ok (ParsedConfig.mk (some []) none []) :=
  ⟨rfl, rfl⟩

/-- C7: after a successful prepare for an azure provider, in both
middleware variants the `authorization` header is exactly `Bearer `
followed by the token returned by `getToken`, and the static API-key
headers `x-api-key` and `api-key` are absent; no error reply is sent. -/
theorem middleware_bearer_header_and_no_api_key (req : Req) (now : Nat)
    (cache : TokenCache) (acquire : Except String String) (p : Provider) (tok : String)
    (hp : req.selectedProvider = some p)
    (ha : p.auth_type = some "azure")
    (hok : (getAzureToken cache now acquire).result = Except.ok tok) :
    let rA := azureAuthMiddlewareUrl req now cache acquire
    let rB := azureAuthMiddlewareSideChannel req now cache acquire
    aget rA.headers "authorization" = some ("Bearer " ++ tok) ∧
      aget rA.headers "x-api-key" = none ∧ aget rA.headers "api-key" = none ∧
      rA.reply = none ∧
      aget rB.headers "authorization" = some ("Bearer " ++ tok) ∧
      aget rB.headers "x-api-key" = none ∧ aget rB.headers "api-key" = none ∧
      rB.reply = none := by
  have hne1 : ("authorization" : String) ≠ "api-key" := by decide
  have hne2 : ("authorization" : String) ≠ "x-api-key" := by decide
  have hne3 : ("x-api-key" : String) ≠ "api-key" := by decide
  have hcond : (p.auth_type ≠ some "azure") = False := by simp [ha]
  have hAuth : ∀ hs : List (String × String),
      aget (adel (adel (aset hs "authorization" ("Bearer " ++ tok)) "x-api-key") "api-key")
        "authorization" = some ("Bearer " ++ tok) := fun hs => by
    rw [aget_adel_ne _ _ _ hne1, aget_adel_ne _ _ _ hne2, aget_aset_self]
  have hX : ∀ hs : List (String × String),
      aget (adel (adel (aset hs "authorization" ("Bearer " ++ tok)) "x-api-key") "api-key")
        "x-api-key" = none := fun hs => by
    rw [aget_adel_ne _ _ _ hne3, aget_adel_self]
  have hK : ∀ hs : List (String × String),
      aget (adel (adel (aset hs "authorization" ("Bearer " ++ tok)) "x-api-key") "api-key")
        "api-key" = none := fun hs => by
    rw [aget_adel_self]
  simp only [azureAuthMiddlewareUrl, azureAuthMiddlewareSideChannel, hp, hcond, if_false, hok]
  rcases req.azureDeployment with _ | d <;> rcases req.azureApiVersion with _ | v
  · refine ⟨?_, ?_, ?_, ?_, ?_, ?_, ?_, ?_⟩ <;>
      first
        | trivial
        | exact hAuth _
        | exact hX _
        | exact hK _
  · refine ⟨?_, ?_, ?_, ?_, ?_, ?_, ?_, ?_⟩ <;>
      first
        | trivial
        | exact hAuth _
        | exact hX _
        | exact hK _
  · refine ⟨?_, ?_, ?_, ?_, ?_, ?_, ?_, ?_⟩ <;>
      first
        | trivial
        | exact hAuth _
        | exact hX _
        | exact hK _
  · by_cases hdv : (d != "" && v != "") = true
    · simp only [if_pos hdv]
      refine ⟨?_, ?_, ?_, ?_, ?_, ?_, ?_, ?_⟩ <;>
        first
          | trivial
          | exact hAuth _
          | exact hX _
          | exact hK _
          | exact (aget_aset_sidechannel _ d v _ (by decide) (by decide)).trans (hAuth _)
          | exact (aget_aset_sidechannel _ d v _ (by decide) (by decide)).trans (hX _)
          | exact (aget_aset_sidechannel _ d v _ (by decide) (by decide)).trans (hK _)
    · simp only [if_neg hdv]
      refine ⟨?_, ?_, ?_, ?_, ?_, ?_, ?_, ?_⟩ <;>
        first
          | trivial
          | exact hAuth _
          | exact hX _
          | exact hK _

/-- The concrete request used for the C7 witness. -/
def c7Req : Req :=
  ⟨[("x-api-key", "sk-dummy")],
    some ⟨"azure-gpt4", "https://res.openai.azure.com", some "azure", some "sk-dummy", ["gpt-4"]⟩,
    none, none⟩

/-- C7 witness. -/
theorem middleware_bearer_header_and_no_api_key_witness :
    c7Req.selectedProvider
        = some ⟨"azure-gpt4", "https://res.openai.azure.com", some "azure", some "sk-dummy",
            ["gpt-4"]⟩ ∧
      (getAzureToken [] 0 (Except.ok "tk")).result = Except.ok "tk" ∧
      aget (azureAuthMiddlewareUrl c7Req 0 [] (Except.ok "tk")).headers "authorization"
        = some ("Bearer " ++ "tk") ∧
      aget (azureAuthMiddlewareUrl c7Req 0 [] (Except.ok "tk")).headers "x-api-key" = none ∧
      aget (azureAuthMiddlewareSideChannel c7Req 0 [] (Except.ok "tk")).headers "authorization"
        = some ("Bearer " ++ "tk") ∧
      aget (azureAuthMiddlewareSideChannel c7Req 0 [] (Except.ok "tk")).headers "api-key"
        = none :=
  have h := middleware_bearer_header_and_no_api_key c7Req 0 [] (Except.ok "tk")
    ⟨"azure-gpt4", "https://res.openai.azure.com", some "azure", some "sk-dummy", ["gpt-4"]⟩
    "tk" rfl rfl rfl
  ⟨rfl, rfl, h.1, h.2.1, h.2.2.2.2.1, h.2.2.2.2.2.2.1⟩

/-- C8: after `initConfig`, every top-level key of the loaded
configuration object is present in the process environment
(`Object.assign(process.env, config)` copies every entry). -/
theorem initConfig_env_has_config_keys (env cfgEntries : List (String × String))
    (k : String) (h : (aget cfgEntries k).isSome) :
    (aget (initConfigEnv env cfgEntries) k).isSome :=
  aget_objectAssign_isSome cfgEntries env k (Or.inl h)

/-- C8 witness. -/
theorem initConfig_env_has_config_keys_witness :
    (aget [("APIKEY", "secret"), ("HOST", "127.0.0.1")] "HOST").isSome = true ∧
      (aget (initConfigEnv [("PATH", "/usr/bin")]
        [("APIKEY", "secret"), ("HOST", "127.0.0.1")]) "HOST").isSome = true :=
  ⟨by decide,
    initConfig_env_has_config_keys [("PATH", "/usr/bin")]
      [("APIKEY", "secret"), ("HOST", "127.0.0.1")] "HOST" (by decide)⟩

/-- C9: when no provider is selected or the selected provider's
`auth_type` is not `azure`, both middleware variants are a complete
no-op: headers, provider, cache are unchanged, no acquisition happens
and no reply is sent. -/
theorem middleware_noop_nonazure (req : Req) (now : Nat) (cache : TokenCache)
    (acquire : Except String String)
    (h : ∀ p, req.selectedProvider = some p → p.auth_type ≠ some "azure") :
    azureAuthMiddlewareUrl req now cache acquire
        = ⟨req.headers, req.selectedProvider, none, cache, 0⟩ ∧
      azureAuthMiddlewareSideChannel req now cache acquire
        = ⟨req.headers, req.selectedProvider, none, cache, 0⟩ := by
  rcases hp : req.selectedProvider with _ | p
  · simp [azureAuthMiddlewareUrl, azureAuthMiddlewareSideChannel, hp]
  · have hna := h p hp
    simp [azureAuthMiddlewareUrl, azureAuthMiddlewareSideChannel, hp, hna]

/-- C9 witness. -/
theorem middleware_noop_nonazure_witness :
    (∀ p, (Req.mk [("x-api-key", "sk")] none none none).selectedProvider = some p →
        p.auth_type ≠ some "azure") ∧
      azureAuthMiddlewareUrl (Req.mk [("x-api-key", "sk")] none none none) 0 []
          (Except.ok "t") = ⟨[("x-api-key", "sk")], none, none, [], 0⟩ ∧
      azureAuthMiddlewareSideChannel (Req.mk [("x-api-key", "sk")] none none none) 0 []
          (Except.ok "t") = ⟨[("x-api-key", "sk")], none, none, [], 0⟩ :=
  have hyp : ∀ p, (Req.mk [("x-api-key", "sk")] none none none).selectedProvider = some p →
      p.auth_type ≠ some "azure" := fun p hp => nomatch hp
  have h := middleware_noop_nonazure (Req.mk [("x-api-key", "sk")] none none none) 0 []
    (Except.ok "t") hyp
  ⟨hyp, h.1, h.2⟩

/-- C10: the two middleware variants agree on every authentication
outcome (error reply, cache, acquisition count, `authorization` header,
absence of `x-api-key`/`api-key`, provider `api_key`), and differ only
in the carrier of the deployment information: the side-channel variant
never touches `api_base_url`, and every header other than
`x-azure-deployment`/`x-azure-api-version` agrees between the two. -/
theorem middleware_variants_agree (req : Req) (now : Nat) (cache : TokenCache)
    (acquire : Except String String) :
    let rA := azureAuthMiddlewareUrl req now cache acquire
    let rB := azureAuthMiddlewareSideChannel req now cache acquire
    rA.reply = rB.reply ∧ rA.cache = rB.cache ∧ rA.acquisitions = rB.acquisitions ∧
      aget rA.headers "authorization" = aget rB.headers "authorization" ∧
      aget rA.headers "x-api-key" = aget rB.headers "x-api-key" ∧
      aget rA.headers "api-key" = aget rB.headers "api-key" ∧
      rA.provider.map Provider.api_key = rB.provider.map Provider.api_key ∧
      rB.provider.map Provider.api_base_url
        = req.selectedProvider.map Provider.api_base_url ∧
      (∀ k, k ≠ "x-azure-deployment" → k ≠ "x-azure-api-version" →
        aget rA.headers k = aget rB.headers k) := by
  rcases hp : req.selectedProvider with _ | p
  · simp [azureAuthMiddlewareUrl, azureAuthMiddlewareSideChannel, hp]
  · by_cases ha : p.auth_type = some "azure"
    · have hcond : (p.auth_type ≠ some "azure") = False := by simp [ha]
      rcases hr : (getAzureToken cache now acquire).result with e | tok
      · simp only [azureAuthMiddlewareUrl, azureAuthMiddlewareSideChannel, hp, hcond,
          if_false, hr]
        refine ⟨?_, ?_, ?_, ?_, ?_, ?_, ?_, ?_, ?_⟩ <;>
          first
            | trivial
            | (intro k hk1 hk2; trivial)
      · simp only [azureAuthMiddlewareUrl, azureAuthMiddlewareSideChannel, hp, hcond,
          if_false, hr]
        rcases req.azureDeployment with _ | d <;> rcases req.azureApiVersion with _ | v
        · refine ⟨?_, ?_, ?_, ?_, ?_, ?_, ?_, ?_, ?_⟩ <;>
            first
              | trivial
              | exact congrArg some (api_base_url_after_api_key_delete p)
              | (intro k hk1 hk2; trivial)
        · refine ⟨?_, ?_, ?_, ?_, ?_, ?_, ?_, ?_, ?_⟩ <;>
            first
              | trivial
              | exact congrArg some (api_base_url_after_api_key_delete p)
              | (intro k hk1 hk2; trivial)
        · refine ⟨?_, ?_, ?_, ?_, ?_, ?_, ?_, ?_, ?_⟩ <;>
            first
              | trivial
              | exact congrArg some (api_base_url_after_api_key_delete p)
              | (intro k hk1 hk2; trivial)
        · by_cases hdv : (d != "" && v != "") = true
          · simp only [if_pos hdv]
            refine ⟨?_, ?_, ?_, ?_, ?_, ?_, ?_, ?_, ?_⟩ <;>
              first
                | trivial
                | exact (aget_aset_sidechannel _ d v _ (by decide) (by decide)).symm
                | exact congrArg some (api_base_url_after_api_key_delete p)
                | (intro k hk1 hk2; exact (aget_aset_sidechannel _ d v _ hk1 hk2).symm)
          · simp only [if_neg hdv]
            refine ⟨?_, ?_, ?_, ?_, ?_, ?_, ?_, ?_, ?_⟩ <;>
              first
                | trivial
                | exact congrArg some (api_base_url_after_api_key_delete p)
                | (intro k hk1 hk2; trivial)
    · have hna : p.auth_type ≠ some "azure" := ha
      simp only [azureAuthMiddlewareUrl, azureAuthMiddlewareSideChannel, hp,
        eq_true hna, if_true]
      refine ⟨?_, ?_, ?_, ?_, ?_, ?_, ?_, ?_, ?_⟩ <;>
        first
          | trivial
          | (intro k hk1 hk2; trivial)

/-- The concrete request used for the C10 witness. -/
def c10Req : Req :=
  ⟨[("foo", "bar")],
    some ⟨"azure-gpt4", "https://res.openai.azure.com/openai/x", some "azure",
      some "sk-dummy", ["gpt-4"]⟩,
    some "dep", some "2024-10-21"⟩

/-- C10 witness. -/
theorem middleware_variants_agree_witness :
    ("foo" : String) ≠ "x-azure-deployment" ∧ ("foo" : String) ≠ "x-azure-api-version" ∧
      (azureAuthMiddlewareUrl c10Req 0 [] (Except.ok "t")).reply
        = (azureAuthMiddlewareSideChannel c10Req 0 [] (Except.ok "t")).reply ∧
      aget (azureAuthMiddlewareUrl c10Req 0 [] (Except.ok "t")).headers "foo"
        = aget (azureAuthMiddlewareSideChannel c10Req 0 [] (Except.ok "t")).headers "foo" :=
  have h := middleware_variants_agree c10Req 0 [] (Except.ok "t")
  ⟨by decide, by decide, h.1, h.2.2.2.2.2.2.2.2 "foo" (by decide) (by decide)⟩

end CCR
